import Mathlib

/-!
Verification of the iterative parser-synthesis agent (`agent.py`).

The development shallowly embeds the control loop of `agent.py`:
the langgraph workflow `planner_node → code_generator_node → code_tester_node`
with the conditional edge `should_continue`, the `__main__` driver, and the
validation oracle
`pd.testing.assert_frame_equal(result.reset_index(drop=True),
 expected.reset_index(drop=True), check_dtype=False, check_like=True)`.

External effects (the Gemini calls in `safe_generate_text`, pypdf text
extraction, execution of a generated candidate module, the pandas diff
message of a failed assertion) are supplied by an `Env` record; file writes
and collaborator calls are returned as an explicit effect trace.

Numbers in tables are modelled as rationals; the approximate numeric
comparison used by `assert_frame_equal` (defaults `rtol=1e-5`, `atol=1e-8`,
`check_exact=False`) is modelled by `numClose`.
-/

/-- A cell of a DataFrame: a numeric value (int64/float64, modelled as a
rational) or a text value (object dtype). -/
inductive Cell where
  | num (q : ℚ)
  | str (s : String)
deriving DecidableEq, Repr

/-- Default cell used for out-of-range index access (never reached on
rectangular tables). -/
def dCell : Cell := Cell.str ""

/-- The approximate numeric comparison applied by `assert_frame_equal` to
numeric cells under its default tolerances: `|a - b| ≤ atol + rtol * |b|`
with `rtol = 1e-5`, `atol = 1e-8` (`b` is the reference value). -/
def numClose (a b : ℚ) : Bool :=
  decide (|a - b| ≤ 1 / 100000000 + 1 / 100000 * |b|)

/-- Cell comparison of the oracle with `check_dtype=False`: numeric cells
compare by (approximate) numeric value regardless of int/float dtype, text
cells compare exactly, and a text cell never equals a numeric cell. -/
def cellEq : Cell → Cell → Bool
  | Cell.num a, Cell.num b => numClose a b
  | Cell.str a, Cell.str b => a == b
  | _, _ => false

/-- A DataFrame after `reset_index(drop=True)`: named ordered columns and a
list of rows, each row holding its cells in column order. -/
structure Table where
  cols : List String
  rows : List (List Cell)
deriving DecidableEq, Repr

/-- Rectangularity: each row has exactly one cell per column. -/
def Table.Rect (t : Table) : Prop := ∀ r ∈ t.rows, r.length = t.cols.length

/-- The values of the column named `c`, in row order (`none` when the table
has no such column).  Mirrors label-based column access in pandas. -/
def Table.colVals (t : Table) (c : String) : Option (List Cell) :=
  if c ∈ t.cols then
    some (t.rows.map fun r => r.getD (t.cols.indexOf c) dCell)
  else none

/-- The validation oracle: the pass/fail verdict of
`assert_frame_equal(produced, reference, check_dtype=False, check_like=True)`
on reset-index frames.  The shapes must agree; then (per `check_like`, which
reindexes the produced frame by the reference labels) every reference column
must exist in the produced frame with row-wise matching values. -/
def framesEqual (produced reference : Table) : Bool :=
  decide (produced.rows.length = reference.rows.length) &&
  decide (produced.cols.length = reference.cols.length) &&
  reference.cols.all fun c =>
    match produced.colVals c, reference.colVals c with
    | some pv, some rv => (pv.zip rv).all fun ab => cellEq ab.1 ab.2
    | _, _ => false

/-- Cell of table `t` at row `i` in the column named `c` (label-based access,
as the oracle performs it). -/
def Table.cellAt (t : Table) (i : Nat) (c : String) : Cell :=
  (t.rows.getD i []).getD (t.cols.indexOf c) dCell

/-- Reorder the entries of one row by the column-index list `π`. -/
def permuteRow (π : List Nat) (row : List Cell) : List Cell :=
  π.map fun i => row.getD i dCell

/-- The table `t` with its columns rearranged by the index list `π`
(meaningful when `π` is a permutation of `List.range t.cols.length`): column
`k` of the result is column `π k` of `t`, in every row. -/
def Table.permuteCols (t : Table) (π : List Nat) : Table :=
  ⟨π.map fun i => t.cols.getD i "", t.rows.map (permuteRow π)⟩

/-- The table `t` with rows `i` and `j` exchanged. -/
def Table.swapRows (t : Table) (i j : Nat) : Table :=
  ⟨t.cols, (t.rows.set i (t.rows.getD j [])).set j (t.rows.getD i [])⟩

/-- Decimal digit to character, used to model Python's `str` on a
non-negative integer. -/
def decDigitChar : Nat → Char
  | 0 => '0' | 1 => '1' | 2 => '2' | 3 => '3' | 4 => '4'
  | 5 => '5' | 6 => '6' | 7 => '7' | 8 => '8' | _ => '9'

/-- Python's `str` on a non-negative integer: standard decimal notation,
most significant digit first. -/
def decStr (n : Nat) : String :=
  if n = 0 then "0" else String.mk (((Nat.digits 10 n).map decDigitChar).reverse)

/-- `agent.py` line 188: the per-attempt persisted path
`os.path.join("custom_parsers", f"{target}_parser_attempt_{attempt_no}.py")`. -/
def attemptPath (target : String) (attempt_no : Nat) : String :=
  "custom_parsers/" ++ target ++ "_parser_attempt_" ++ decStr attempt_no ++ ".py"

/-- `agent.py` line 223: the canonical per-target path
`os.path.join("custom_parsers", f"{target}_parser.py")`, written only after a
passing comparison. -/
def canonicalPath (target : String) : String :=
  "custom_parsers/" ++ target ++ "_parser.py"

/-- Python `repr` of a string (single-quoted), as interpolated by `!r`;
escaping of special characters inside schema names is not modelled. -/
def pyStrRepr (s : String) : String := "\x27" ++ s ++ "\x27"

/-- Python `repr` of a list of strings, e.g. `['Date', 'Amount']`. -/
def pyListRepr (l : List String) : String :=
  "[" ++ String.intercalate ", " (l.map pyStrRepr) ++ "]"

/-- Characters matched by `[a-zA-Z0-9_-]` in `clean_code_block`'s fence
regex. -/
def fenceHintChar (ch : Char) : Bool :=
  ch.isAlphanum || ch == '_' || ch == '-'

/-- Split a character list at every occurrence of `sep` (the line structure
used by the multiline fence regex of `clean_code_block`). -/
def splitOnChar (sep : Char) : List Char → List (List Char)
  | [] => [[]]
  | c :: cs =>
    match splitOnChar sep cs with
    | [] => [[c]]
    | h :: t => if c = sep then [] :: h :: t else (c :: h) :: t

/-- One line of `clean_code_block`'s `re.sub(r"^```[a-zA-Z0-9_-]*\n?", "", …,
flags=re.MULTILINE)`: a line starting with a backtick fence loses the fence
and the following language hint; if nothing else was on the line, the line
(with its newline) disappears entirely (`none`). -/
def stripFenceLine (line : List Char) : Option (List Char) :=
  match line with
  | '`' :: '`' :: '`' :: rest =>
    match rest.dropWhile fenceHintChar with
    | [] => none
    | rest2 => some rest2
  | _ => some line

/-- `str.replace("```", "")`: delete every (non-overlapping, left-to-right)
triple-backtick occurrence. -/
def removeTicks : List Char → List Char
  | [] => []
  | '`' :: '`' :: '`' :: rest => removeTicks rest
  | c :: rest => c :: removeTicks rest

/-- Python `str.strip()`: drop surrounding whitespace. -/
def trimChars (l : List Char) : List Char :=
  ((l.dropWhile Char.isWhitespace).reverse.dropWhile Char.isWhitespace).reverse

/-- `agent.py` `clean_code_block`: remove markdown fences and language hints,
remove any remaining triple backticks, and strip surrounding whitespace. -/
def clean_code_block (text : String) : String :=
  let kept := (splitOnChar '\n' text.data).filterMap stripFenceLine
  String.mk (trimChars (removeTicks (List.intercalate ['\n'] kept)))

/-- `agent.py` `_local_planner_fallback`: the deterministic local plan used
when the planning collaborator fails or returns empty text. -/
def _local_planner_fallback (target : String) (csv_schema : List String)
    (pdf_sample : String) : String :=
  "1. Read PDF and locate transaction table header (Date, Description, Amount, Balance).\n"
    ++ "2. Merge continuation lines where line doesn\x27t start with a date.\n"
    ++ "3. Extract columns, coerce numbers, return pandas DataFrame with schema "
    ++ pyListRepr csv_schema ++ ".\n"
    ++ "4. Use pypdf for extraction, pandas for manipulation, handle missing files gracefully."

/-- `agent.py` `_local_code_fallback`: the deterministic local candidate
source substituted when the generation collaborator fails or returns
empty/too-short text.  The returned text is the Python source of the naive
fallback parser, with the schema interpolated via `{csv_schema!r}`. -/
def _local_code_fallback (csv_schema : List String) : String :=
  String.intercalate "\n"
    [ "# FALLBACK parser (agent generated)"
    , "import pandas as pd"
    , "from pypdf import PdfReader"
    , "from typing import Optional"
    , ""
    , "SCHEMA = " ++ pyListRepr csv_schema
    , ""
    , "def parse(pdf_path: str) -> Optional[pd.DataFrame]:"
    , "    try:"
    , "        reader = PdfReader(pdf_path)"
    , "        rows = []"
    , "        for page in reader.pages:"
    , "            text = page.extract_text() or \"\""
    , "            for line in text.splitlines():"
    , "                ln = line.strip()"
    , "                if not ln:"
    , "                    continue"
    , "                # naive heuristic: lines with a date at start (DD/MM/YYYY or YYYY-MM-DD or DD-MM-YYYY)"
    , "                if ln[:2].isdigit() and (\"/\" in ln or \"-\" in ln):"
    , "                    parts = ln.split()"
    , "                    # put entire remainder into Description if fewer tokens"
    , "                    if len(parts) >= 4:"
    , "                        date = parts[0]"
    , "                        amount = parts[-2]"
    , "                        balance = parts[-1]"
    , "                        description = \" \".join(parts[1:-2])"
    , "                    else:"
    , "                        # fallback: place entire line into Description"
    , "                        date = parts[0]"
    , "                        description = \" \".join(parts[1:])"
    , "                        amount = None"
    , "                        balance = None"
    , "                    rows.append([date, description, amount, balance])"
    , "        df = pd.DataFrame(rows, columns=SCHEMA[:4]) if rows else pd.DataFrame(columns=SCHEMA)"
    , "        # Coerce numeric columns"
    , "        for c in df.columns:"
    , "            if c.lower() in (\x27amount\x27, \x27balance\x27, \x27debit\x27, \x27credit\x27):"
    , "                df[c] = pd.to_numeric(df[c].astype(str).str.replace(\x27,\x27, \x27\x27), errors=\x27coerce\x27)"
    , "        return df"
    , "    except Exception as e:"
    , "        raise RuntimeError(f\"Fallback parser error: \x7be\x7d\")"
    , "" ]

/-- The langgraph workflow state (`AgentState` TypedDict of `agent.py`).
`attempts_left` is a Python `int`, hence `Int` (the code guards it with
`max(0, …)`); `attempt_no` counts synthesis rounds from 1. -/
structure AgentState where
  target : String
  pdf_path : String
  csv_path : String
  plan : String
  code : String
  feedback : String
  attempts_left : Int
  attempt_no : Nat
deriving DecidableEq, Repr

/-- Observable result of loading and running one candidate module inside
`code_tester_node`'s `try` block: the module ran `parse` and returned a
DataFrame (`ok`), the module lacks a `parse` attribute, `parse` returned a
non-DataFrame, or the import / the call raised (`raises`, carrying the
exception type name, its message and the formatted traceback). -/
inductive ExecResult where
  | ok (df : Table)
  | noParseAttr (tb : String)
  | notDataFrame (tb : String)
  | raises (name msg tb : String)
deriving DecidableEq, Repr

/-- Kinds of collaborator (LLM) calls issued by the nodes. -/
inductive CallKind where
  | planner
  | generator
deriving DecidableEq, Repr

/-- Externally observable side effects of the nodes: a durable file write or
a collaborator call. -/
inductive Effect where
  | fileWrite (path content : String)
  | llmCall (k : CallKind)
deriving DecidableEq, Repr

/-- The file writes contained in an effect trace, in order. -/
def writesOf (tr : List Effect) : List (String × String) :=
  tr.filterMap fun e =>
    match e with
    | Effect.fileWrite p c => some (p, c)
    | _ => none

/-- The paths written by an effect trace, in order. -/
def pathsOf (tr : List Effect) : List String := (writesOf tr).map Prod.fst

/-- The collaborator calls contained in an effect trace, in order. -/
def callsOf (tr : List Effect) : List CallKind :=
  tr.filterMap fun e =>
    match e with
    | Effect.llmCall k => some k
    | _ => none

/-- The external world of one run: the parsed reference CSV (its header
`csvSchema` and full contents `refTable`), the pypdf extraction result, the
responses of the two LLM collaborators (`none` models a raised/failed call,
which `safe_generate_text` converts to `""`; the generator is keyed by the
attempt number since each round issues a fresh call), the sandboxed outcome
of executing a candidate source, and the text of a pandas `AssertionError`
diff for a mismatching produced table. -/
structure Env where
  csvSchema : List String
  refTable : Table
  pdfExtract : String
  plannerLLM : Option String
  genLLM : Nat → Option String
  exec : String → ExecResult
  assertionMsg : Table → String

/-- `agent.py` `safe_generate_text`: returns the model's text, or `""` when
the Gemini call raised. -/
def safe_generate_text (resp : Option String) : String :=
  match resp with
  | some t => t
  | none => ""

/-- `agent.py` `extract_pdf_text`: opaque pypdf text extraction (missing
file and read errors are already folded into the returned string by the
source, which never raises here). -/
def extract_pdf_text (env : Env) (pdf_path : String) : String :=
  env.pdfExtract

/-- `agent.py` `planner_node`: read the CSV schema, sample the PDF text, ask
the planning collaborator, and fall back to `_local_planner_fallback` when
the response is empty (which includes every failed call). -/
def planner_node (env : Env) (state : AgentState) : AgentState × List Effect :=
  let csv_schema := env.csvSchema
  let pdf_text_sample := (extract_pdf_text env state.pdf_path).take 4000
  let resp_text := safe_generate_text env.plannerLLM
  let plan :=
    if resp_text = "" then _local_planner_fallback state.target csv_schema pdf_text_sample
    else resp_text
  ({ state with plan := plan }, [Effect.llmCall CallKind.planner])

/-- The candidate source produced by `code_generator_node` in the round
numbered `n`: the cleaned collaborator response, or `_local_code_fallback`
when that response is empty or shorter than 50 characters. -/
def generatedCode (env : Env) (n : Nat) : String :=
  let resp_text := safe_generate_text (env.genLLM n)
  let cleaned := clean_code_block resp_text
  if cleaned = "" ∨ cleaned.length < 50 then _local_code_fallback env.csvSchema
  else cleaned

/-- `agent.py` `code_generator_node`: store the generated candidate source in
`state.code` (the prompt text only flows into the opaque collaborator call,
which the `Env` answers via `genLLM`). -/
def code_generator_node (env : Env) (state : AgentState) : AgentState × List Effect :=
  ({ state with code := generatedCode env state.attempt_no },
   [Effect.llmCall CallKind.generator])

/-- The `finally:` block of `code_tester_node`:
`state['attempts_left'] = max(0, state['attempts_left'] - 1)` and
`state['attempt_no'] = state.get("attempt_no", 1) + 1`. -/
def tester_finally (state : AgentState) : AgentState :=
  { state with
    attempts_left := max 0 (state.attempts_left - 1)
    attempt_no := state.attempt_no + 1 }

/-- The feedback string recorded by `code_tester_node`'s outer
`except Exception` handler: `f"{type(e).__name__}: {e}\n{tb}"`, for each way
the sandboxed execution can fail. -/
def errFeedback : ExecResult → String
  | ExecResult.noParseAttr tb =>
      "AttributeError: Generated parser module has no `parse` function.\n" ++ tb
  | ExecResult.notDataFrame tb =>
      "TypeError: parse() did not return a pandas DataFrame.\n" ++ tb
  | ExecResult.raises name msg tb => name ++ ": " ++ msg ++ "\n" ++ tb
  | ExecResult.ok _ => ""

/-- `agent.py` `code_tester_node`: persist the candidate to its per-attempt
path, execute it in a fresh module, compare a returned DataFrame to the
reference with `assert_frame_equal(…, check_dtype=False, check_like=True)`;
on a pass, record `"success"` and write the canonical parser file; on any
failure, record the diagnostic; and in all cases run the `finally:` block. -/
def code_tester_node (env : Env) (state : AgentState) : AgentState × List Effect :=
  let parser_path := attemptPath state.target state.attempt_no
  let saveAttempt : Effect := Effect.fileWrite parser_path state.code
  match env.exec state.code with
  | ExecResult.ok result_df =>
      if framesEqual result_df env.refTable then
        (tester_finally { state with feedback := "success" },
         [saveAttempt, Effect.fileWrite (canonicalPath state.target) state.code])
      else
        (tester_finally
          { state with feedback := "DataFrames not equal: " ++ env.assertionMsg result_df },
         [saveAttempt])
  | e => (tester_finally { state with feedback := errFeedback e }, [saveAttempt])

/-- `agent.py` `should_continue`: `"end"` on success or once the retry
budget is spent, else `"continue"`. -/
def should_continue (state : AgentState) : String :=
  if state.feedback = "success" then "end"
  else if state.attempts_left ≤ 0 then "end"
  else "continue"

/-- The compiled langgraph cycle `code_generator → code_tester →
should_continue`, entered after `planner`; `fuel` bounds the number of
rounds (the caller supplies enough fuel for the conditional edge to be the
only exit, see `runAgent`). -/
def loop (env : Env) : Nat → AgentState → AgentState × List Effect
  | 0, state => (state, [])
  | Nat.succ fuel, state =>
      let g := code_generator_node env state
      let t := code_tester_node env g.1
      if should_continue t.1 = "end" then (t.1, g.2 ++ t.2)
      else
        let r := loop env fuel t.1
        (r.1, g.2 ++ t.2 ++ r.2)

/-- `app.invoke(initial_state)`: run `planner` once, then the
generate–test cycle until `should_continue` returns `"end"`.  Each round
decrements `attempts_left`, so `attempts_left.toNat + 1` rounds always
suffice. -/
def runAgent (env : Env) (state0 : AgentState) : AgentState × List Effect :=
  let p := planner_node env state0
  let r := loop env (p.1.attempts_left.toNat + 1) p.1
  (r.1, p.2 ++ r.2)

/-- The `initial_state` dict of `agent.py`'s `__main__` (the source fixes
`attempts_left = 3`; the retry budget is the `n` parameter here). -/
def initial_state (target pdf_path csv_path : String) (n : Int) : AgentState :=
  ⟨target, pdf_path, csv_path, "", "", "", n, 1⟩

/-- Terminal outcome reported by `__main__`: the success branch when the
final feedback is `"success"`, the exhaustion branch otherwise, and
`sys.exit(1)` when the target's data files are missing. -/
inductive Outcome where
  | SUCCESS
  | EXHAUSTED
  | CONFIGURATION_ERROR
deriving DecidableEq, Repr

/-- The outcome `__main__` reports for a finished run
(`final_state.get('feedback') == "success"`). -/
def runOutcome (final : AgentState) : Outcome :=
  if final.feedback = "success" then Outcome.SUCCESS else Outcome.EXHAUSTED

/-- `attempts_used = 3 - final_state.get('attempts_left', 0)` of `__main__`,
generalised to an initial budget `n0`. -/
def attemptsUsed (n0 : Int) (final : AgentState) : Int := n0 - final.attempts_left

/-- `target_bank = args.target.strip().lower()`. -/
def mainTarget (arg : String) : String := arg.trim.toLower

/-- `bank_prefix = "icic" if target_bank == "icici" else target_bank`. -/
def mainBankPfx (arg : String) : String :=
  if mainTarget arg = "icici" then "icic" else mainTarget arg

/-- `pdf_path = os.path.join("data", target_bank, f"{bank_prefix}_sample.pdf")`. -/
def mainPdfPath (arg : String) : String :=
  "data/" ++ mainTarget arg ++ "/" ++ mainBankPfx arg ++ "_sample.pdf"

/-- `csv_path = os.path.join("data", target_bank, f"{bank_prefix}_sample.csv")`. -/
def mainCsvPath (arg : String) : String :=
  "data/" ++ mainTarget arg ++ "/" ++ mainBankPfx arg ++ "_sample.csv"

/-- `agent.py` `__main__`: check that both data files exist (else exit with a
configuration error before any node runs), then invoke the workflow with a
retry budget of 3.  `fsExists` is the `os.path.exists` oracle. -/
def mainModel (env : Env) (fsExists : String → Bool) (arg : String) :
    Option (AgentState × List Effect) :=
  if fsExists (mainPdfPath arg) && fsExists (mainCsvPath arg) then
    some (runAgent env (initial_state (mainTarget arg) (mainPdfPath arg) (mainCsvPath arg) 3))
  else none

/-- The outcome of `__main__`, including the missing-data-files exit. -/
def mainOutcome (env : Env) (fsExists : String → Bool) (arg : String) : Outcome :=
  match mainModel env fsExists arg with
  | some (final, _) => runOutcome final
  | none => Outcome.CONFIGURATION_ERROR

/-- The effects performed by `__main__` (none at all when it exits early). -/
def mainEffects (env : Env) (fsExists : String → Bool) (arg : String) : List Effect :=
  match mainModel env fsExists arg with
  | some (_, tr) => tr
  | none => []

/-- A candidate source `s` does not pass the oracle under `env`: executing it
either faults, or returns a DataFrame the oracle rejects. -/
def candidateFails (env : Env) (s : String) : Prop :=
  match env.exec s with
  | ExecResult.ok df => framesEqual df env.refTable = false
  | _ => True

/-- Executing the candidate held in `state.code` passes the oracle. -/
def testPasses (env : Env) (state : AgentState) : Prop :=
  match env.exec state.code with
  | ExecResult.ok df => framesEqual df env.refTable = true
  | _ => False

/-- The sandboxed execution faulted (no `parse`, wrong return type, or a
raised exception) rather than producing a DataFrame. -/
def execFails : ExecResult → Prop
  | ExecResult.ok _ => False
  | _ => True

/-- Concrete two-column, two-row table of text cells used to instantiate the
oracle's order-sensitivity properties on a closed input. -/
def tblW : Table :=
  ⟨["A", "B"], [[Cell.str "u", Cell.str "x"], [Cell.str "v", Cell.str "y"]]⟩

/-- The very first generated candidate (round 1) passes the oracle under
`env`. -/
def firstCandidatePasses (env : Env) : Prop :=
  match env.exec (generatedCode env 1) with
  | ExecResult.ok df => framesEqual df env.refTable = true
  | _ => False

/-- Concrete environment in which every candidate execution raises: used to
instantiate theorems with failure hypotheses on a closed input. -/
def failEnv : Env :=
  ⟨["Date"], ⟨["Date"], [[Cell.str "01/01/2024"]]⟩, "", none, fun _ => none,
   fun _ => ExecResult.raises "ValueError" "bad input" "Traceback (most recent call last)",
   fun _ => "diff"⟩

/-- Concrete environment in which every candidate execution returns exactly
the reference table: used to instantiate theorems with success hypotheses on
a closed input. -/
def passEnv : Env :=
  ⟨["Date"], ⟨["Date"], [[Cell.str "01/01/2024"]]⟩, "", none, fun _ => none,
   fun _ => ExecResult.ok ⟨["Date"], [[Cell.str "01/01/2024"]]⟩,
   fun _ => "diff"⟩

lemma ne_success_of_colon {s : String} (h : ':' ∈ s.data) : s ≠ "success" := by
  intro he
  subst he
  exact absurd h (by decide)

lemma colon_mem_raises (name msg tb : String) : ':' ∈ (name ++ ": " ++ msg ++ "\n" ++ tb).data := by
  simp [String.data_append]

lemma colon_mem_left (a tb : String) (h : ':' ∈ a.data) : ':' ∈ (a ++ tb).data := by
  simp [String.data_append]
  exact Or.inl h

lemma errFeedback_ne_success {e : ExecResult} (he : execFails e) :
    errFeedback e ≠ "success" := by
  cases e with
  | ok df => exact absurd he (by simp [execFails])
  | noParseAttr tb => exact ne_success_of_colon (colon_mem_left _ _ (by decide))
  | notDataFrame tb => exact ne_success_of_colon (colon_mem_left _ _ (by decide))
  | raises n m tb => exact ne_success_of_colon (colon_mem_raises n m tb)

lemma mismatch_ne_success (m : String) : ("DataFrames not equal: " ++ m) ≠ "success" :=
  ne_success_of_colon (colon_mem_left _ _ (by decide))

lemma decDigitChar_inj : ∀ d, d < 10 → ∀ e, e < 10 → decDigitChar d = decDigitChar e → d = e := by decide

lemma map_decDigitChar_inj : ∀ (l1 l2 : List Nat), (∀ x ∈ l1, x < 10) → (∀ x ∈ l2, x < 10) →
    l1.map decDigitChar = l2.map decDigitChar → l1 = l2 := by
  intro l1
  induction l1 with
  | nil => intro l2 _ _ h; cases l2 <;> simp_all
  | cons a l ih =>
    intro l2 h1 h2 h
    cases l2 with
    | nil => simp_all
    | cons b l' =>
      simp only [List.map_cons, List.cons.injEq] at h
      have hab : a = b :=
        decDigitChar_inj a (h1 a (List.mem_cons_self a l)) b (h2 b (List.mem_cons_self b l')) h.1
      have : l = l' := ih l' (fun x hx => h1 x (List.mem_cons_of_mem _ hx))
        (fun x hx => h2 x (List.mem_cons_of_mem _ hx)) h.2
      simp [hab, this]

lemma decStr_data (n : Nat) (hn : n ≠ 0) :
    (decStr n).data = ((Nat.digits 10 n).map decDigitChar).reverse := by
  simp [decStr, hn]

lemma decStr_inj {n m : Nat} (h : decStr n = decStr m) : n = m := by
  have hd : (decStr n).data = (decStr m).data := congrArg String.data h
  by_cases hn : n = 0 <;> by_cases hm : m = 0
  · omega
  · exfalso
    rw [hn] at hd
    rw [decStr_data m hm] at hd
    have : ['0'] = ((Nat.digits 10 m).map decDigitChar).reverse := hd
    have h2 : ((Nat.digits 10 m).map decDigitChar) = ['0'] := by
      have := congrArg List.reverse this
      simpa using this.symm
    have h3 : Nat.digits 10 m = [0] := by
      apply map_decDigitChar_inj _ [0]
      · intro x hx; exact Nat.digits_lt_base (by norm_num) hx
      · intro x hx; simp at hx; omega
      · simpa using h2
    have := Nat.ofDigits_digits 10 m
    rw [h3] at this
    simp [Nat.ofDigits] at this
    omega
  · exfalso
    rw [hm] at hd
    rw [decStr_data n hn] at hd
    have h2 : ((Nat.digits 10 n).map decDigitChar) = ['0'] := by
      have := congrArg List.reverse hd
      simpa using this
    have h3 : Nat.digits 10 n = [0] := by
      apply map_decDigitChar_inj _ [0]
      · intro x hx; exact Nat.digits_lt_base (by norm_num) hx
      · intro x hx; simp at hx; omega
      · simpa using h2
    have := Nat.ofDigits_digits 10 n
    rw [h3] at this
    simp [Nat.ofDigits] at this
    omega
  · rw [decStr_data n hn, decStr_data m hm] at hd
    have h2 : (Nat.digits 10 n).map decDigitChar = (Nat.digits 10 m).map decDigitChar := by
      have := congrArg List.reverse hd
      simpa using this
    have h3 : Nat.digits 10 n = Nat.digits 10 m := by
      apply map_decDigitChar_inj _ _ _ _ h2
      · intro x hx; exact Nat.digits_lt_base (by norm_num) hx
      · intro x hx; exact Nat.digits_lt_base (by norm_num) hx
    have := congrArg (Nat.ofDigits 10) h3
    rwa [Nat.ofDigits_digits, Nat.ofDigits_digits] at this

lemma decStr_length_pos (n : Nat) : 1 ≤ (decStr n).length := by
  by_cases hn : n = 0
  · subst hn; decide
  · have : (decStr n).data = ((Nat.digits 10 n).map decDigitChar).reverse := decStr_data n hn
    have hlen : (decStr n).length = (Nat.digits 10 n).length := by
      simp [String.length, this]
    rw [hlen]
    have hne : Nat.digits 10 n ≠ [] := Nat.digits_ne_nil_iff_ne_zero.mpr hn
    exact List.length_pos.mpr hne

lemma data_of_append (a b : String) : (a ++ b).data = a.data ++ b.data := String.data_append a b

lemma attemptPath_inj {t : String} {n m : Nat} (h : attemptPath t n = attemptPath t m) : n = m := by
  apply decStr_inj
  have hd := congrArg String.data h
  simp only [attemptPath, String.data_append, List.append_assoc] at hd
  have h1 := List.append_cancel_left hd
  have h2 := List.append_cancel_left h1
  have h3 := List.append_cancel_left h2
  have h4 : (decStr n).data = (decStr m).data := List.append_cancel_right h3
  cases hn : decStr n with
  | mk d1 => cases hm : decStr m with
    | mk d2 =>
      rw [hn, hm] at h4
      simp at h4
      simp [h4]

lemma attemptPath_ne_canonical (t : String) (n : Nat) :
    attemptPath t n ≠ canonicalPath t := by
  intro h
  have hl := congrArg String.length h
  simp only [attemptPath, canonicalPath, String.length_append] at hl
  have hp := decStr_length_pos n
  have c1 : ("custom_parsers/" : String).length = 15 := by decide
  have c2 : ("_parser_attempt_" : String).length = 16 := by decide
  have c3 : (".py" : String).length = 3 := by decide
  have c4 : ("_parser.py" : String).length = 10 := by decide
  omega

/-- C6, counterexample.  The claim asserts that a produced text cell
`"1,234.50"` compared against the numeric reference cell `1234.5` passes
validation.  In the code the oracle is `assert_frame_equal` with
`check_dtype=False`, which never parses numeric representations out of
strings: the comparison fails. -/
theorem claim_C6_counterexample :
    framesEqual ⟨["Amount"], [[Cell.str "1,234.50"]]⟩
      ⟨["Amount"], [[Cell.num (2469/2)]]⟩ = false := by
  simp [framesEqual, Table.colVals, cellEq, dCell]

/-- C6, amended.  The oracle does not normalise numeric representations held
in text cells: produced `"1,234.50"` vs. numeric reference `1234.5` is a
mismatch (a text cell never equals a numeric cell); produced `10.00` vs.
reference `10.01` is a `ValueMismatch` as claimed; text cells compare by
exact value without trimming, so `" x"` vs. `"x"` is also a mismatch; the
int/float distinction is ignored for numeric cells (`10` equals `10.0`,
both `Cell.num 10`). -/
theorem claim_C6_amended :
    framesEqual ⟨["Amount"], [[Cell.str "1,234.50"]]⟩
        ⟨["Amount"], [[Cell.num (2469/2)]]⟩ = false
    ∧ framesEqual ⟨["Amount"], [[Cell.num 10]]⟩
        ⟨["Amount"], [[Cell.num (1001/100)]]⟩ = false
    ∧ framesEqual ⟨["Description"], [[Cell.str " x"]]⟩
        ⟨["Description"], [[Cell.str "x"]]⟩ = false
    ∧ framesEqual ⟨["Amount"], [[Cell.num 10]]⟩
        ⟨["Amount"], [[Cell.num 10]]⟩ = true := by
  refine ⟨?_, ?_, ?_, ?_⟩
  · simp [framesEqual, Table.colVals, cellEq, dCell]
  · have h1 : |(1001:ℚ)/100| = 1001/100 := abs_of_nonneg (by norm_num)
    simp [framesEqual, Table.colVals, cellEq, dCell, numClose, abs_le, lt_abs, h1]
    norm_num
  · simp [framesEqual, Table.colVals, cellEq, dCell]
  · simp [framesEqual, Table.colVals, cellEq, dCell, numClose, abs_le, lt_abs]
    norm_num

/-- C5, counterexample.  The claim's parenthetical asserts that for passing
tables with non-identical rows, permuting the reference's rows always fails.
`assert_frame_equal`'s default comparison of float values is approximate
(`rtol=1e-5`, `atol=1e-8`), so a reference whose two rows differ by less
than the tolerance may keep passing after its rows are swapped: here the
produced value `1.000002` is within tolerance of both reference values `1`
and `1.000005`, so both the original and the row-swapped reference pass. -/
theorem claim_C5_counterexample :
    framesEqual ⟨["A"], [[Cell.num (1000002/1000000)], [Cell.num (1000002/1000000)]]⟩
        ⟨["A"], [[Cell.num 1], [Cell.num (1000005/1000000)]]⟩ = true
    ∧ (⟨["A"], [[Cell.num 1], [Cell.num (1000005/1000000)]]⟩ : Table).rows.getD 0 []
        ≠ (⟨["A"], [[Cell.num 1], [Cell.num (1000005/1000000)]]⟩ : Table).rows.getD 1 []
    ∧ framesEqual ⟨["A"], [[Cell.num (1000002/1000000)], [Cell.num (1000002/1000000)]]⟩
        ((⟨["A"], [[Cell.num 1], [Cell.num (1000005/1000000)]]⟩ : Table).swapRows 0 1) = true := by
  refine ⟨?_, ?_, ?_⟩
  · simp [framesEqual, Table.colVals, cellEq, dCell, numClose, abs_le, lt_abs]
    rw [abs_of_nonneg (show (0:ℚ) ≤ 1000005/1000000 by norm_num)]
    norm_num
  · simp only [List.getD]
    intro h
    simp at h
    norm_num at h
  · simp [framesEqual, Table.swapRows, Table.colVals, cellEq, dCell, numClose, abs_le, lt_abs]
    rw [abs_of_nonneg (show (0:ℚ) ≤ 1000005/1000000 by norm_num)]
    norm_num
lemma tester_fail_spec (env : Env) (st : AgentState) (hf : candidateFails env st.code) :
    (code_tester_node env st).1.feedback ≠ "success"
    ∧ (code_tester_node env st).1.attempts_left = max 0 (st.attempts_left - 1)
    ∧ (code_tester_node env st).1.attempt_no = st.attempt_no + 1
    ∧ (code_tester_node env st).1.target = st.target
    ∧ (code_tester_node env st).2 =
        [Effect.fileWrite (attemptPath st.target st.attempt_no) st.code] := by
  unfold candidateFails at hf
  unfold code_tester_node
  cases he : env.exec st.code with
  | ok df =>
    rw [he] at hf
    dsimp only
    rw [hf]
    dsimp only [tester_finally]
    exact ⟨mismatch_ne_success _, rfl, rfl, rfl, rfl⟩
  | noParseAttr tb =>
    dsimp only [tester_finally]
    exact ⟨errFeedback_ne_success (by trivial), rfl, rfl, rfl, rfl⟩
  | notDataFrame tb =>
    dsimp only [tester_finally]
    exact ⟨errFeedback_ne_success (by trivial), rfl, rfl, rfl, rfl⟩
  | raises n m tb =>
    dsimp only [tester_finally]
    exact ⟨errFeedback_ne_success (by trivial), rfl, rfl, rfl, rfl⟩

lemma tester_pass_spec (env : Env) (st : AgentState) (hp : testPasses env st) :
    (code_tester_node env st).1.feedback = "success"
    ∧ (code_tester_node env st).1.attempts_left = max 0 (st.attempts_left - 1)
    ∧ (code_tester_node env st).1.attempt_no = st.attempt_no + 1
    ∧ (code_tester_node env st).1.target = st.target
    ∧ (code_tester_node env st).2 =
        [Effect.fileWrite (attemptPath st.target st.attempt_no) st.code,
         Effect.fileWrite (canonicalPath st.target) st.code] := by
  unfold testPasses at hp
  unfold code_tester_node
  cases he : env.exec st.code with
  | ok df =>
    rw [he] at hp
    dsimp only
    rw [hp]
    exact ⟨rfl, rfl, rfl, rfl, rfl⟩
  | noParseAttr tb => rw [he] at hp; exact absurd hp (by simp)
  | notDataFrame tb => rw [he] at hp; exact absurd hp (by simp)
  | raises n m tb => rw [he] at hp; exact absurd hp (by simp)

/-- C7.  Every way the sandboxed execution of a candidate can fault — a
missing `parse` entry point, a non-DataFrame return value, or an exception
raised during import or execution — is caught by `code_tester_node` and
converted into the typed diagnostic `errFeedback` (exception type name,
original message and formatted traceback, see `errFeedback`); the attempt
file is still the only persisted file, the failure is never recorded as
success, the budget is decremented, and while budget remains the
conditional edge sends the run back to generation.  Nothing is re-raised:
`code_tester_node` is total. -/
theorem claim_C7_sandbox_boundary (env : Env) (st : AgentState)
    (h : execFails (env.exec st.code)) :
    (code_tester_node env st).1.feedback = errFeedback (env.exec st.code)
    ∧ (code_tester_node env st).1.feedback ≠ "success"
    ∧ (code_tester_node env st).2 =
        [Effect.fileWrite (attemptPath st.target st.attempt_no) st.code]
    ∧ (code_tester_node env st).1.attempts_left = max 0 (st.attempts_left - 1)
    ∧ (2 ≤ st.attempts_left → should_continue (code_tester_node env st).1 = "continue") := by
  unfold execFails at h
  unfold code_tester_node
  cases he : env.exec st.code with
  | ok df => rw [he] at h; exact absurd h (by simp)
  | noParseAttr tb =>
    dsimp only [tester_finally]
    refine ⟨rfl, errFeedback_ne_success (by trivial), rfl, rfl, fun hb => ?_⟩
    unfold should_continue
    rw [if_neg (errFeedback_ne_success (by trivial))]
    rw [if_neg (by dsimp only; omega)]
  | notDataFrame tb =>
    dsimp only [tester_finally]
    refine ⟨rfl, errFeedback_ne_success (by trivial), rfl, rfl, fun hb => ?_⟩
    unfold should_continue
    rw [if_neg (errFeedback_ne_success (by trivial))]
    rw [if_neg (by dsimp only; omega)]
  | raises n m tb =>
    dsimp only [tester_finally]
    refine ⟨rfl, errFeedback_ne_success (by trivial), rfl, rfl, fun hb => ?_⟩
    unfold should_continue
    rw [if_neg (errFeedback_ne_success (by trivial))]
    rw [if_neg (by dsimp only; omega)]

theorem claim_C7_witness :
    execFails (failEnv.exec (initial_state "icici" "p" "c" 3).code)
    ∧ ((code_tester_node failEnv (initial_state "icici" "p" "c" 3)).1.feedback =
          errFeedback (failEnv.exec (initial_state "icici" "p" "c" 3).code)
        ∧ (code_tester_node failEnv (initial_state "icici" "p" "c" 3)).1.feedback ≠ "success"
        ∧ (code_tester_node failEnv (initial_state "icici" "p" "c" 3)).2 =
            [Effect.fileWrite
              (attemptPath (initial_state "icici" "p" "c" 3).target
                (initial_state "icici" "p" "c" 3).attempt_no)
              (initial_state "icici" "p" "c" 3).code]
        ∧ (code_tester_node failEnv (initial_state "icici" "p" "c" 3)).1.attempts_left =
            max 0 ((initial_state "icici" "p" "c" 3).attempts_left - 1)
        ∧ (2 ≤ (initial_state "icici" "p" "c" 3).attempts_left →
            should_continue (code_tester_node failEnv (initial_state "icici" "p" "c" 3)).1 =
              "continue")) :=
  ⟨trivial, claim_C7_sandbox_boundary failEnv (initial_state "icici" "p" "c" 3) trivial⟩

/-- C9.  The candidate store's paths: the per-attempt path is a function of
target identity and attempt number only, distinct attempt numbers of the
same target yield distinct paths (so saves never overwrite another
attempt's file), the attempt path is never the canonical path, and
`code_tester_node` writes the canonical per-target file exactly when the
executed candidate passes the oracle. -/
theorem claim_C9_store_paths (env : Env) (st : AgentState) (t : String) (n m : Nat)
    (hnm : n ≠ m) :
    attemptPath t n ≠ attemptPath t m
    ∧ attemptPath t n ≠ canonicalPath t
    ∧ (Effect.fileWrite (canonicalPath st.target) st.code ∈ (code_tester_node env st).2
        ↔ testPasses env st) := by
  refine ⟨fun h => hnm (attemptPath_inj h), attemptPath_ne_canonical t n, ?_⟩
  unfold testPasses
  unfold code_tester_node
  cases he : env.exec st.code with
  | ok df =>
    by_cases hq : framesEqual df env.refTable = true
    · dsimp only
      rw [hq]
      simp
    · rw [Bool.not_eq_true] at hq
      dsimp only
      rw [hq]
      simp only [Bool.false_eq_true, if_false, iff_false]
      intro hc
      rw [List.mem_singleton] at hc
      simp only [Effect.fileWrite.injEq] at hc
      exact attemptPath_ne_canonical st.target st.attempt_no hc.1.symm
  | noParseAttr tb =>
    dsimp only
    simp only [iff_false]
    intro hc
    rw [List.mem_singleton] at hc
    simp only [Effect.fileWrite.injEq] at hc
    exact attemptPath_ne_canonical st.target st.attempt_no hc.1.symm
  | notDataFrame tb =>
    dsimp only
    simp only [iff_false]
    intro hc
    rw [List.mem_singleton] at hc
    simp only [Effect.fileWrite.injEq] at hc
    exact attemptPath_ne_canonical st.target st.attempt_no hc.1.symm
  | raises nm ms tb =>
    dsimp only
    simp only [iff_false]
    intro hc
    rw [List.mem_singleton] at hc
    simp only [Effect.fileWrite.injEq] at hc
    exact attemptPath_ne_canonical st.target st.attempt_no hc.1.symm

theorem claim_C9_witness :
    (1 : Nat) ≠ 2
    ∧ (attemptPath "icici" 1 ≠ attemptPath "icici" 2
      ∧ attemptPath "icici" 1 ≠ canonicalPath "icici"
      ∧ (Effect.fileWrite (canonicalPath (initial_state "icici" "p" "c" 3).target)
            (initial_state "icici" "p" "c" 3).code
            ∈ (code_tester_node passEnv (initial_state "icici" "p" "c" 3)).2
          ↔ testPasses passEnv (initial_state "icici" "p" "c" 3))) :=
  ⟨by decide, claim_C9_store_paths passEnv (initial_state "icici" "p" "c" 3) "icici" 1 2
    (by decide)⟩

/-- C3.  When the target's sample PDF or reference CSV does not exist,
`__main__` exits with a configuration error before the workflow is invoked:
no run state is produced, no collaborator is called, no file is written, and
in particular no attempt is made (the attempt counter is never even
initialised into a running workflow). -/
theorem claim_C3_configuration_error (env : Env) (fsExists : String → Bool) (arg : String)
    (h : fsExists (mainPdfPath arg) = false ∨ fsExists (mainCsvPath arg) = false) :
    mainModel env fsExists arg = none
    ∧ mainOutcome env fsExists arg = Outcome.CONFIGURATION_ERROR
    ∧ mainEffects env fsExists arg = []
    ∧ writesOf (mainEffects env fsExists arg) = []
    ∧ callsOf (mainEffects env fsExists arg) = [] := by
  have hcond : (fsExists (mainPdfPath arg) && fsExists (mainCsvPath arg)) = false := by
    cases h with
    | inl h1 => simp [h1]
    | inr h2 => simp [h2]
  have hm : mainModel env fsExists arg = none := by
    unfold mainModel
    rw [hcond]
    rfl
  refine ⟨hm, ?_, ?_, ?_, ?_⟩
  · unfold mainOutcome
    rw [hm]
  · unfold mainEffects
    rw [hm]
  · unfold mainEffects
    rw [hm]
    rfl
  · unfold mainEffects
    rw [hm]
    rfl

theorem claim_C3_witness :
    ((fun _ : String => false) (mainPdfPath "icici") = false
      ∨ (fun _ : String => false) (mainCsvPath "icici") = false)
    ∧ (mainModel failEnv (fun _ => false) "icici" = none
      ∧ mainOutcome failEnv (fun _ => false) "icici" = Outcome.CONFIGURATION_ERROR
      ∧ mainEffects failEnv (fun _ => false) "icici" = []
      ∧ writesOf (mainEffects failEnv (fun _ => false) "icici") = []
      ∧ callsOf (mainEffects failEnv (fun _ => false) "icici") = []) :=
  ⟨Or.inl rfl, claim_C3_configuration_error failEnv (fun _ => false) "icici" (Or.inl rfl)⟩

lemma pathsOf_append (tr1 tr2 : List Effect) :
    pathsOf (tr1 ++ tr2) = pathsOf tr1 ++ pathsOf tr2 := by
  simp [pathsOf, writesOf, List.filterMap_append]

lemma generator_preserves (env : Env) (st : AgentState) :
    (code_generator_node env st).1.attempts_left = st.attempts_left
    ∧ (code_generator_node env st).1.attempt_no = st.attempt_no
    ∧ (code_generator_node env st).1.target = st.target
    ∧ (code_generator_node env st).1.code = generatedCode env st.attempt_no
    ∧ (code_generator_node env st).2 = [Effect.llmCall CallKind.generator] :=
  ⟨rfl, rfl, rfl, rfl, rfl⟩

lemma loop_all_fail (env : Env) (hfail : ∀ s, candidateFails env s) :
    ∀ (k : Nat) (fuel : Nat) (st : AgentState), 1 ≤ k → k ≤ fuel →
      st.attempts_left = (k : Int) →
      (loop env fuel st).1.feedback ≠ "success"
      ∧ (loop env fuel st).1.attempts_left = 0
      ∧ (loop env fuel st).1.attempt_no = st.attempt_no + k
      ∧ pathsOf (loop env fuel st).2 =
          (List.range k).map (fun i => attemptPath st.target (st.attempt_no + i)) := by
  intro k
  induction k with
  | zero => intro fuel st h1 _ _; omega
  | succ k ih =>
    intro fuel st hk hf hatt
    cases fuel with
    | zero => omega
    | succ f =>
      have hg := generator_preserves env st
      set g := code_generator_node env st with hgdef
      have ht := tester_fail_spec env g.1 (hfail _)
      set t := code_tester_node env g.1 with htdef
      have hfb : t.1.feedback ≠ "success" := ht.1
      have hal : t.1.attempts_left = (k : Int) := by
        rw [ht.2.1, hg.1, hatt]
        push_cast
        omega
      have han : t.1.attempt_no = st.attempt_no + 1 := by rw [ht.2.2.1, hg.2.1]
      have htg : t.1.target = st.target := by rw [ht.2.2.2.1, hg.2.2.1]
      have hw : pathsOf t.2 = [attemptPath st.target st.attempt_no] := by
        rw [ht.2.2.2.2, hg.2.2.1, hg.2.1]
        rfl
      by_cases hk0 : k = 0
      · -- final round: the budget is exhausted and the conditional edge ends the run
        subst hk0
        have hsc : should_continue t.1 = "end" := by
          unfold should_continue
          rw [if_neg hfb, if_pos (by rw [hal]; norm_num)]
        simp only [loop]
        rw [← hgdef, ← htdef, hsc, if_pos rfl]
        refine ⟨hfb, by rw [hal]; norm_num, by rw [han], ?_⟩
        rw [pathsOf_append, hg.2.2.2.2, hw]
        have h0 : pathsOf [Effect.llmCall CallKind.generator] = [] := rfl
        rw [h0]
        simp [List.range_succ]
      · -- the conditional edge re-enters generation with one round less
        have hk1 : 1 ≤ k := by omega
        have hsc : should_continue t.1 = "continue" := by
          unfold should_continue
          rw [if_neg hfb, if_neg (by rw [hal]; omega)]
        simp only [loop]
        rw [← hgdef, ← htdef, hsc, if_neg (by decide)]
        obtain ⟨ihf, iha, ihn, ihp⟩ := ih f t.1 hk1 (by omega) hal
        rw [htg, han] at ihp
        refine ⟨ihf, iha, ?_, ?_⟩
        · rw [ihn, han]
          omega
        · rw [pathsOf_append, pathsOf_append, hg.2.2.2.2, hw, ihp]
          have h0 : pathsOf [Effect.llmCall CallKind.generator] = [] := rfl
          rw [h0, List.range_succ_eq_map]
          simp only [List.map_cons, List.map_map, Nat.add_zero, List.nil_append,
            List.singleton_append, List.cons.injEq, true_and]
          apply List.map_congr_left
          intro i _
          simp only [Function.comp]
          congr 1
          omega

lemma planner_preserves (env : Env) (st : AgentState) :
    (planner_node env st).1.attempts_left = st.attempts_left
    ∧ (planner_node env st).1.attempt_no = st.attempt_no
    ∧ (planner_node env st).1.target = st.target
    ∧ (planner_node env st).2 = [Effect.llmCall CallKind.planner] :=
  ⟨rfl, rfl, rfl, rfl⟩

/-- C1.  A run started with retry budget `N ≥ 1` in which no candidate
passes the oracle ends in the exhaustion outcome with `attemptsUsed = N`,
and the persisted files are exactly the `N` per-attempt files, numbered 1
through `N`, pairwise distinct, with no write to the canonical path. -/
theorem claim_C1_exhaustion (env : Env) (t p c : String) (N : Nat)
    (hN : 1 ≤ N) (hfail : ∀ s, candidateFails env s) :
    runOutcome (runAgent env (initial_state t p c (N:Int))).1 = Outcome.EXHAUSTED
    ∧ attemptsUsed (N:Int) (runAgent env (initial_state t p c (N:Int))).1 = (N:Int)
    ∧ pathsOf (runAgent env (initial_state t p c (N:Int))).2 =
        (List.range N).map (fun i => attemptPath t (1 + i))
    ∧ (pathsOf (runAgent env (initial_state t p c (N:Int))).2).Nodup
    ∧ canonicalPath t ∉ pathsOf (runAgent env (initial_state t p c (N:Int))).2 := by
  have hfuel : N ≤ ((planner_node env (initial_state t p c (N:Int))).1.attempts_left.toNat + 1) := by
    show N ≤ ((N:Int)).toNat + 1
    omega
  obtain ⟨hfb, hal, han, hp⟩ := loop_all_fail env hfail N
    ((planner_node env (initial_state t p c (N:Int))).1.attempts_left.toNat + 1)
    (planner_node env (initial_state t p c (N:Int))).1 hN hfuel rfl
  have hr1 : (runAgent env (initial_state t p c (N:Int))).1 =
      (loop env ((planner_node env (initial_state t p c (N:Int))).1.attempts_left.toNat + 1)
        (planner_node env (initial_state t p c (N:Int))).1).1 := rfl
  have hr2 : pathsOf (runAgent env (initial_state t p c (N:Int))).2 =
      pathsOf (loop env ((planner_node env (initial_state t p c (N:Int))).1.attempts_left.toNat + 1)
        (planner_node env (initial_state t p c (N:Int))).1).2 := by
    show pathsOf ((planner_node env (initial_state t p c (N:Int))).2 ++ _) = _
    rw [pathsOf_append, (planner_preserves env (initial_state t p c (N:Int))).2.2.2]
    rfl
  have hpt : (planner_node env (initial_state t p c (N:Int))).1.target = t := rfl
  have hpn : (planner_node env (initial_state t p c (N:Int))).1.attempt_no = 1 := rfl
  rw [hpt, hpn] at hp
  refine ⟨?_, ?_, ?_, ?_, ?_⟩
  · unfold runOutcome
    rw [hr1, if_neg hfb]
  · unfold attemptsUsed
    rw [hr1, hal]
    ring
  · rw [hr2, hp]
  · rw [hr2, hp]
    refine List.Nodup.map ?_ (List.nodup_range N)
    intro i j hij
    have := attemptPath_inj hij
    omega
  · rw [hr2, hp]
    intro hmem
    rw [List.mem_map] at hmem
    obtain ⟨i, _, hi⟩ := hmem
    exact attemptPath_ne_canonical t (1 + i) hi

theorem claim_C1_witness :
    1 ≤ 3 ∧ (∀ s, candidateFails failEnv s)
    ∧ (runOutcome (runAgent failEnv (initial_state "icici" "p" "c" ((3:Nat):Int))).1 =
        Outcome.EXHAUSTED
      ∧ attemptsUsed ((3:Nat):Int) (runAgent failEnv (initial_state "icici" "p" "c" ((3:Nat):Int))).1 =
          ((3:Nat):Int)
      ∧ pathsOf (runAgent failEnv (initial_state "icici" "p" "c" ((3:Nat):Int))).2 =
          (List.range 3).map (fun i => attemptPath "icici" (1 + i))
      ∧ (pathsOf (runAgent failEnv (initial_state "icici" "p" "c" ((3:Nat):Int))).2).Nodup
      ∧ canonicalPath "icici" ∉
          pathsOf (runAgent failEnv (initial_state "icici" "p" "c" ((3:Nat):Int))).2) :=
  ⟨by omega, fun _ => trivial,
   claim_C1_exhaustion failEnv "icici" "p" "c" 3 (by omega) (fun _ => trivial)⟩

lemma loop_first_pass (env : Env) (f : Nat) (st : AgentState)
    (hpass : testPasses env (code_generator_node env st).1) :
    (loop env (Nat.succ f) st).1.feedback = "success"
    ∧ (loop env (Nat.succ f) st).1.attempts_left = max 0 (st.attempts_left - 1)
    ∧ (loop env (Nat.succ f) st).2 =
        [Effect.llmCall CallKind.generator,
         Effect.fileWrite (attemptPath st.target st.attempt_no)
           (generatedCode env st.attempt_no),
         Effect.fileWrite (canonicalPath st.target) (generatedCode env st.attempt_no)] := by
  have hg := generator_preserves env st
  set g := code_generator_node env st with hgdef
  have ht := tester_pass_spec env g.1 hpass
  set t := code_tester_node env g.1 with htdef
  have hsc : should_continue t.1 = "end" := by
    unfold should_continue
    rw [if_pos ht.1]
  simp only [loop]
  rw [← hgdef, ← htdef, hsc, if_pos rfl]
  refine ⟨ht.1, ?_, ?_⟩
  · rw [ht.2.1, hg.1]
  · rw [hg.2.2.2.2, ht.2.2.2.2, hg.2.2.1, hg.2.1]
    have hcode : g.1.code = generatedCode env st.attempt_no := hg.2.2.2.1
    rw [hcode]
    rfl

/-- C2.  For a target whose sample PDF and reference CSV exist, if the first
generated candidate's output passes the oracle, the run ends in the success
outcome with `attemptsUsed = 1`, and the files written are exactly the
attempt-1 file and the canonical file, both holding that candidate's
source — the candidate is promoted to the canonical path. -/
theorem claim_C2_first_attempt_success (env : Env) (fsExists : String → Bool) (arg : String)
    (hpdf : fsExists (mainPdfPath arg) = true) (hcsv : fsExists (mainCsvPath arg) = true)
    (hpass : firstCandidatePasses env) :
    ∃ final tr, mainModel env fsExists arg = some (final, tr)
      ∧ runOutcome final = Outcome.SUCCESS
      ∧ attemptsUsed 3 final = 1
      ∧ writesOf tr =
          [(attemptPath (mainTarget arg) 1, generatedCode env 1),
           (canonicalPath (mainTarget arg), generatedCode env 1)] := by
  have hm : mainModel env fsExists arg =
      some (runAgent env (initial_state (mainTarget arg) (mainPdfPath arg) (mainCsvPath arg) 3)) := by
    unfold mainModel
    rw [hpdf, hcsv]
    rfl
  have hpass' : testPasses env
      (code_generator_node env
        (planner_node env
          (initial_state (mainTarget arg) (mainPdfPath arg) (mainCsvPath arg) 3)).1).1 := hpass
  have hloop := loop_first_pass env ((3:Int).toNat)
    (planner_node env (initial_state (mainTarget arg) (mainPdfPath arg) (mainCsvPath arg) 3)).1
    hpass'
  have hrun1 : (runAgent env (initial_state (mainTarget arg) (mainPdfPath arg) (mainCsvPath arg) 3)).1 =
      (loop env (Nat.succ ((3:Int).toNat))
        (planner_node env (initial_state (mainTarget arg) (mainPdfPath arg) (mainCsvPath arg) 3)).1).1 :=
    rfl
  have hrun2 : (runAgent env (initial_state (mainTarget arg) (mainPdfPath arg) (mainCsvPath arg) 3)).2 =
      [Effect.llmCall CallKind.planner] ++
        (loop env (Nat.succ ((3:Int).toNat))
          (planner_node env (initial_state (mainTarget arg) (mainPdfPath arg) (mainCsvPath arg) 3)).1).2 :=
    rfl
  have hplan_att : (planner_node env
      (initial_state (mainTarget arg) (mainPdfPath arg) (mainCsvPath arg) 3)).1.attempts_left = 3 := rfl
  have hplan_no : (planner_node env
      (initial_state (mainTarget arg) (mainPdfPath arg) (mainCsvPath arg) 3)).1.attempt_no = 1 := rfl
  have hplan_t : (planner_node env
      (initial_state (mainTarget arg) (mainPdfPath arg) (mainCsvPath arg) 3)).1.target = mainTarget arg := rfl
  refine ⟨(runAgent env (initial_state (mainTarget arg) (mainPdfPath arg) (mainCsvPath arg) 3)).1,
    (runAgent env (initial_state (mainTarget arg) (mainPdfPath arg) (mainCsvPath arg) 3)).2,
    by rw [hm], ?_, ?_, ?_⟩
  · unfold runOutcome
    rw [hrun1, if_pos hloop.1]
  · unfold attemptsUsed
    rw [hrun1, hloop.2.1, hplan_att]
    norm_num
  · rw [hrun2, hloop.2.2, hplan_no, hplan_t]
    rfl

theorem claim_C2_witness :
    (fun _ : String => true) (mainPdfPath "icici") = true
    ∧ (fun _ : String => true) (mainCsvPath "icici") = true
    ∧ firstCandidatePasses passEnv
    ∧ (∃ final tr, mainModel passEnv (fun _ => true) "icici" = some (final, tr)
        ∧ runOutcome final = Outcome.SUCCESS
        ∧ attemptsUsed 3 final = 1
        ∧ writesOf tr =
            [(attemptPath (mainTarget "icici") 1, generatedCode passEnv 1),
             (canonicalPath (mainTarget "icici"), generatedCode passEnv 1)]) :=
  ⟨rfl, rfl,
   (by decide :
      framesEqual ⟨["Date"], [[Cell.str "01/01/2024"]]⟩
        ⟨["Date"], [[Cell.str "01/01/2024"]]⟩ = true),
   claim_C2_first_attempt_success passEnv (fun _ => true) "icici" rfl rfl
     (by decide :
        framesEqual ⟨["Date"], [[Cell.str "01/01/2024"]]⟩
          ⟨["Date"], [[Cell.str "01/01/2024"]]⟩ = true)⟩

lemma tester_first_write (env : Env) (st : AgentState) :
    ∃ rest, (code_tester_node env st).2 =
      Effect.fileWrite (attemptPath st.target st.attempt_no) st.code :: rest := by
  unfold code_tester_node
  cases env.exec st.code with
  | ok df =>
    by_cases h : framesEqual df env.refTable = true
    · exact ⟨[Effect.fileWrite (canonicalPath st.target) st.code], by simp [h]⟩
    · refine ⟨[], ?_⟩
      simp only [Bool.not_eq_true] at h
      simp [h]
  | noParseAttr tb => exact ⟨[], rfl⟩
  | notDataFrame tb => exact ⟨[], rfl⟩
  | raises n m tb => exact ⟨[], rfl⟩

/-- C10.  `code_tester_node`'s `finally:` block runs on every path: it sets
`attempts_left` to `max(0, attempts_left - 1)` (hence never negative) and
increments `attempt_no` by exactly one; when at least one attempt remained,
the new budget is exactly the old one minus one — also after a success. -/
theorem claim_C10_tester_finally (env : Env) (st : AgentState) :
    (code_tester_node env st).1.attempts_left = max 0 (st.attempts_left - 1)
    ∧ (code_tester_node env st).1.attempt_no = st.attempt_no + 1
    ∧ 0 ≤ (code_tester_node env st).1.attempts_left
    ∧ (1 ≤ st.attempts_left →
        (code_tester_node env st).1.attempts_left = st.attempts_left - 1) := by
  have hfin : ∀ s : AgentState,
      (tester_finally s).attempts_left = max 0 (s.attempts_left - 1)
      ∧ (tester_finally s).attempt_no = s.attempt_no + 1 := fun s => ⟨rfl, rfl⟩
  unfold code_tester_node
  cases env.exec st.code with
  | ok df =>
    by_cases h : framesEqual df env.refTable = true
    · simp only [h, if_true]
      refine ⟨rfl, rfl, le_max_left _ _, fun hle => ?_⟩
      simp only [tester_finally]
      omega
    · simp only [Bool.not_eq_true] at h
      simp only [h, Bool.false_eq_true, if_false]
      refine ⟨rfl, rfl, le_max_left _ _, fun hle => ?_⟩
      simp only [tester_finally]
      omega
  | noParseAttr tb =>
    refine ⟨rfl, rfl, le_max_left _ _, fun hle => ?_⟩
    simp only [tester_finally]
    omega
  | notDataFrame tb =>
    refine ⟨rfl, rfl, le_max_left _ _, fun hle => ?_⟩
    simp only [tester_finally]
    omega
  | raises n m tb =>
    refine ⟨rfl, rfl, le_max_left _ _, fun hle => ?_⟩
    simp only [tester_finally]
    omega

theorem claim_C10_witness :
    (1 : Int) ≤ 3 ∧
    ((code_tester_node
        ⟨[], ⟨[], []⟩, "", none, fun _ => none, fun _ => ExecResult.raises "E" "m" "t",
         fun _ => ""⟩
        (initial_state "icici" "p" "c" 3)).1.attempts_left = max 0 ((3:Int) - 1)
      ∧ (code_tester_node
        ⟨[], ⟨[], []⟩, "", none, fun _ => none, fun _ => ExecResult.raises "E" "m" "t",
         fun _ => ""⟩
        (initial_state "icici" "p" "c" 3)).1.attempt_no = 1 + 1
      ∧ 0 ≤ (code_tester_node
        ⟨[], ⟨[], []⟩, "", none, fun _ => none, fun _ => ExecResult.raises "E" "m" "t",
         fun _ => ""⟩
        (initial_state "icici" "p" "c" 3)).1.attempts_left
      ∧ (code_tester_node
        ⟨[], ⟨[], []⟩, "", none, fun _ => none, fun _ => ExecResult.raises "E" "m" "t",
         fun _ => ""⟩
        (initial_state "icici" "p" "c" 3)).1.attempts_left = (3:Int) - 1) := by
  refine ⟨by norm_num, ?_⟩
  have h := claim_C10_tester_finally
    ⟨[], ⟨[], []⟩, "", none, fun _ => none, fun _ => ExecResult.raises "E" "m" "t", fun _ => ""⟩
    (initial_state "icici" "p" "c" 3)
  exact ⟨h.1, h.2.1, h.2.2.1, h.2.2.2 (by decide)⟩

lemma writesOf_append (tr1 tr2 : List Effect) :
    writesOf (tr1 ++ tr2) = writesOf tr1 ++ writesOf tr2 :=
  List.filterMap_append tr1 tr2 _

lemma tester_writes_code (env : Env) (st : AgentState) :
    ∀ w ∈ writesOf (code_tester_node env st).2, w.2 = st.code := by
  intro w hw
  unfold code_tester_node at hw
  cases he : env.exec st.code with
  | ok df =>
    rw [he] at hw
    by_cases hq : framesEqual df env.refTable = true
    · dsimp only at hw
      rw [hq, if_pos rfl] at hw
      simp [writesOf] at hw
      rcases hw with h | h <;> simp [h]
    · rw [Bool.not_eq_true] at hq
      dsimp only at hw
      rw [hq] at hw
      simp [writesOf] at hw
      simp [hw]
  | noParseAttr tb =>
    rw [he] at hw
    simp [writesOf] at hw
    simp [hw]
  | notDataFrame tb =>
    rw [he] at hw
    simp [writesOf] at hw
    simp [hw]
  | raises nm ms tb =>
    rw [he] at hw
    simp [writesOf] at hw
    simp [hw]

lemma generatedCode_fallback (env : Env) (n : Nat) (hg : env.genLLM n = none) :
    generatedCode env n = _local_code_fallback env.csvSchema := by
  unfold generatedCode safe_generate_text
  rw [hg]
  rfl

lemma loop_writes_fallback (env : Env)
    (hFB : ∀ n, generatedCode env n = _local_code_fallback env.csvSchema) :
    ∀ (fuel : Nat) (st : AgentState), ∀ w ∈ writesOf (loop env fuel st).2,
      w.2 = _local_code_fallback env.csvSchema := by
  intro fuel
  induction fuel with
  | zero => intro st w hw; simp [loop, writesOf] at hw
  | succ f ih =>
    intro st w hw
    simp only [loop] at hw
    by_cases hsc :
        should_continue (code_tester_node env (code_generator_node env st).1).1 = "end"
    · rw [if_pos hsc] at hw
      rw [writesOf_append] at hw
      rcases List.mem_append.mp hw with h | h
      · rw [(generator_preserves env st).2.2.2.2] at h
        simp [writesOf] at h
      · have := tester_writes_code env (code_generator_node env st).1 w h
        rw [this, (generator_preserves env st).2.2.2.1, hFB]
    · rw [if_neg hsc] at hw
      rw [writesOf_append, writesOf_append] at hw
      rcases List.mem_append.mp hw with h | h
      · rcases List.mem_append.mp h with h2 | h2
        · rw [(generator_preserves env st).2.2.2.2] at h2
          simp [writesOf] at h2
        · have := tester_writes_code env (code_generator_node env st).1 w h2
          rw [this, (generator_preserves env st).2.2.2.1, hFB]
      · exact ih _ w h

lemma loop_writes_nonempty (env : Env) (f : Nat) (st : AgentState) :
    writesOf (loop env (Nat.succ f) st).2 ≠ [] := by
  obtain ⟨rest, hr⟩ := tester_first_write env (code_generator_node env st).1
  simp only [loop]
  by_cases hsc :
      should_continue (code_tester_node env (code_generator_node env st).1).1 = "end"
  · rw [if_pos hsc]
    rw [writesOf_append, hr, (generator_preserves env st).2.2.2.2]
    simp [writesOf]
  · rw [if_neg hsc]
    rw [writesOf_append, writesOf_append, hr, (generator_preserves env st).2.2.2.2]
    simp [writesOf]

/-- C4.  Collaborator failure is never fatal: when the planning call fails
(`safe_generate_text` returns `""`), `planner_node` substitutes the
deterministic `_local_planner_fallback`; when the generation call fails or
its cleaned response is empty or shorter than 50 characters,
`code_generator_node` substitutes the deterministic `_local_code_fallback`;
and a whole run with both collaborators failing on every call still
proceeds through the loop — every persisted attempt holds the fallback
implementation, and at least one attempt is persisted. -/
theorem claim_C4_collaborator_fallback (env : Env) (st : AgentState)
    (t p c : String) (N : Nat)
    (hp : env.plannerLLM = none)
    (hg : ∀ n, env.genLLM n = none) :
    (planner_node env st).1.plan =
      _local_planner_fallback st.target env.csvSchema
        ((extract_pdf_text env st.pdf_path).take 4000)
    ∧ (code_generator_node env st).1.code = _local_code_fallback env.csvSchema
    ∧ (∀ w ∈ writesOf (runAgent env (initial_state t p c (N:Int))).2,
        w.2 = _local_code_fallback env.csvSchema)
    ∧ writesOf (runAgent env (initial_state t p c (N:Int))).2 ≠ [] := by
  have hFB : ∀ n, generatedCode env n = _local_code_fallback env.csvSchema :=
    fun n => generatedCode_fallback env n (hg n)
  refine ⟨?_, ?_, ?_, ?_⟩
  · unfold planner_node safe_generate_text
    rw [hp]
    rfl
  · show generatedCode env st.attempt_no = _local_code_fallback env.csvSchema
    exact hFB st.attempt_no
  · intro w hw
    have hrw : writesOf (runAgent env (initial_state t p c (N:Int))).2 =
        writesOf (loop env
          ((planner_node env (initial_state t p c (N:Int))).1.attempts_left.toNat + 1)
          (planner_node env (initial_state t p c (N:Int))).1).2 := by
      show writesOf ((planner_node env (initial_state t p c (N:Int))).2 ++ _) = _
      rw [writesOf_append, (planner_preserves env (initial_state t p c (N:Int))).2.2.2]
      rfl
    rw [hrw] at hw
    exact loop_writes_fallback env hFB _ _ w hw
  · have hrw : writesOf (runAgent env (initial_state t p c (N:Int))).2 =
        writesOf (loop env
          (Nat.succ ((planner_node env (initial_state t p c (N:Int))).1.attempts_left.toNat))
          (planner_node env (initial_state t p c (N:Int))).1).2 := by
      show writesOf ((planner_node env (initial_state t p c (N:Int))).2 ++ _) = _
      rw [writesOf_append, (planner_preserves env (initial_state t p c (N:Int))).2.2.2]
      rfl
    rw [hrw]
    exact loop_writes_nonempty env _ _

theorem claim_C4_witness :
    failEnv.plannerLLM = none ∧ (∀ n, failEnv.genLLM n = none)
    ∧ ((planner_node failEnv (initial_state "icici" "p" "c" 3)).1.plan =
        _local_planner_fallback (initial_state "icici" "p" "c" 3).target failEnv.csvSchema
          ((extract_pdf_text failEnv (initial_state "icici" "p" "c" 3).pdf_path).take 4000)
      ∧ (code_generator_node failEnv (initial_state "icici" "p" "c" 3)).1.code =
          _local_code_fallback failEnv.csvSchema
      ∧ (∀ w ∈ writesOf (runAgent failEnv (initial_state "icici" "p" "c" ((3:Nat):Int))).2,
          w.2 = _local_code_fallback failEnv.csvSchema)
      ∧ writesOf (runAgent failEnv (initial_state "icici" "p" "c" ((3:Nat):Int))).2 ≠ []) :=
  ⟨rfl, fun _ => rfl,
   claim_C4_collaborator_fallback failEnv (initial_state "icici" "p" "c" 3) "icici" "p" "c" 3
     rfl (fun _ => rfl)⟩

lemma all_perm_congr {α : Type} (l1 l2 : List α) (f g : α → Bool)
    (hperm : l1.Perm l2) (hfg : ∀ x ∈ l1, f x = g x) : l1.all f = l2.all g := by
  have hiff : (l1.all f = true) ↔ (l2.all g = true) := by
    rw [List.all_eq_true, List.all_eq_true]
    constructor
    · intro h x hx
      rw [← hfg x (hperm.mem_iff.mpr hx)]
      exact h x (hperm.mem_iff.mpr hx)
    · intro h x hx
      rw [hfg x hx]
      exact h x (hperm.mem_iff.mp hx)
  cases h1 : l1.all f <;> cases h2 : l2.all g <;> simp_all

lemma map_getD_range {α : Type} (l : List α) (d : α) :
    (List.range l.length).map (fun i => l.getD i d) = l := by
  apply List.ext_getElem
  · simp
  · intro i h1 h2
    simp only [List.getElem_map, List.getElem_range]
    exact List.getD_eq_getElem l d h2

lemma permuteCols_cols_perm (t : Table) (π : List Nat)
    (hπ : π.Perm (List.range t.cols.length)) :
    (t.permuteCols π).cols.Perm t.cols := by
  show (π.map fun i => t.cols.getD i "").Perm t.cols
  have h1 := hπ.map (fun i => t.cols.getD i "")
  rwa [map_getD_range] at h1

lemma colVals_permuteCols (t : Table) (π : List Nat)
    (hπ : π.Perm (List.range t.cols.length)) (hnd : t.cols.Nodup) (c : String) :
    (t.permuteCols π).colVals c = t.colVals c := by
  have hperm := permuteCols_cols_perm t π hπ
  by_cases hc : c ∈ t.cols
  · have hc' : c ∈ (t.permuteCols π).cols := hperm.mem_iff.mpr hc
    unfold Table.colVals
    rw [if_pos hc', if_pos hc]
    congr 1
    have hj : t.cols.indexOf c < t.cols.length := List.indexOf_lt_length.mpr hc
    have hk : (t.permuteCols π).cols.indexOf c < (t.permuteCols π).cols.length :=
      List.indexOf_lt_length.mpr hc'
    have hklen : (t.permuteCols π).cols.indexOf c < π.length := by
      have : (t.permuteCols π).cols.length = π.length := by
        show (π.map fun i => t.cols.getD i "").length = π.length
        simp
      omega
    have hπk_mem : π[(t.permuteCols π).cols.indexOf c] ∈ π :=
      List.getElem_mem hklen
    have hπk_lt : π[(t.permuteCols π).cols.indexOf c] < t.cols.length := by
      have := hπ.mem_iff.mp hπk_mem
      exact List.mem_range.mp this
    have hck : (t.permuteCols π).cols[(t.permuteCols π).cols.indexOf c] = c :=
      List.getElem_indexOf hk
    have hck2 : t.cols[π[(t.permuteCols π).cols.indexOf c]] = c := by
      have hmap : (t.permuteCols π).cols[(t.permuteCols π).cols.indexOf c] =
          t.cols.getD π[(t.permuteCols π).cols.indexOf c] "" := by
        show (π.map fun i => t.cols.getD i "")[(t.permuteCols π).cols.indexOf c] = _
        rw [List.getElem_map]
      rw [hmap, List.getD_eq_getElem t.cols "" hπk_lt] at hck
      exact hck
    have hcj : t.cols[t.cols.indexOf c] = c := List.getElem_indexOf hj
    have hidx : π[(t.permuteCols π).cols.indexOf c] = t.cols.indexOf c := by
      have := (hnd.getElem_inj_iff).mp (hck2.trans hcj.symm)
      exact this
    show (t.rows.map (permuteRow π)).map
        (fun row => row.getD ((t.permuteCols π).cols.indexOf c) dCell) = _
    rw [List.map_map]
    apply List.map_congr_left
    intro row _
    show (permuteRow π row).getD ((t.permuteCols π).cols.indexOf c) dCell =
      row.getD (t.cols.indexOf c) dCell
    unfold permuteRow
    have hklen2 : (t.permuteCols π).cols.indexOf c <
        (π.map fun i => row.getD i dCell).length := by simp [hklen]
    rw [List.getD_eq_getElem _ dCell hklen2, List.getElem_map, hidx]
  · have hc' : c ∉ (t.permuteCols π).cols := fun h => hc (hperm.mem_iff.mp h)
    unfold Table.colVals
    rw [if_neg hc', if_neg hc]

lemma framesEqual_permuteCols (p r : Table) (π : List Nat)
    (hπ : π.Perm (List.range r.cols.length)) (hnd : r.cols.Nodup) :
    framesEqual p (r.permuteCols π) = framesEqual p r := by
  unfold framesEqual
  have h1 : (r.permuteCols π).rows.length = r.rows.length := by
    show (r.rows.map (permuteRow π)).length = r.rows.length
    simp
  have h2 : (r.permuteCols π).cols.length = r.cols.length := by
    show (π.map fun i => r.cols.getD i "").length = r.cols.length
    rw [List.length_map, hπ.length_eq, List.length_range]
  rw [h1, h2]
  congr 1
  exact all_perm_congr _ _ _ _ (permuteCols_cols_perm r π hπ)
    (fun c _ => by rw [colVals_permuteCols r π hπ hnd c])

lemma framesEqual_swapRows_false (p r : Table) (i j : Nat) (c : String)
    (hpass : framesEqual p r = true) (hc : c ∈ r.cols)
    (hi : i < r.rows.length) (hj : j < r.rows.length) (hij : i ≠ j)
    (hdiff : cellEq (p.cellAt i c) (r.cellAt j c) = false) :
    framesEqual p (r.swapRows i j) = false := by
  unfold framesEqual at hpass
  rw [Bool.and_eq_true, Bool.and_eq_true] at hpass
  obtain ⟨⟨hl, hcl⟩, hall⟩ := hpass
  rw [decide_eq_true_eq] at hl hcl
  have hallc := List.all_eq_true.mp hall c hc
  by_cases hcp : c ∈ p.cols
  case neg =>
    exfalso
    have hpv : p.colVals c = none := by
      unfold Table.colVals
      rw [if_neg hcp]
    have hrv : r.colVals c =
        some (r.rows.map fun row => row.getD (r.cols.indexOf c) dCell) := by
      unfold Table.colVals
      rw [if_pos hc]
    rw [hpv, hrv] at hallc
    simp at hallc
  case pos =>
  have hpv : p.colVals c =
      some (p.rows.map fun row => row.getD (p.cols.indexOf c) dCell) := by
    unfold Table.colVals
    rw [if_pos hcp]
  have hswl : (r.swapRows i j).rows.length = r.rows.length := by
    show ((r.rows.set i _).set j _).length = r.rows.length
    simp
  have hswc : (r.swapRows i j).cols = r.cols := rfl
  set pv := p.rows.map fun row => row.getD (p.cols.indexOf c) dCell with hpvdef
  set rv2 := (r.swapRows i j).rows.map fun row => row.getD (r.cols.indexOf c) dCell with hrvdef
  have hcsw : c ∈ (r.swapRows i j).cols := by rw [hswc]; exact hc
  have hrv2 : (r.swapRows i j).colVals c = some rv2 := by
    unfold Table.colVals
    rw [if_pos hcsw]
    rfl
  have hpl : i < pv.length := by rw [hpvdef]; simp; omega
  have hrl : i < rv2.length := by rw [hrvdef]; simp [hswl]; omega
  have hzl : i < (pv.zip rv2).length := by rw [List.length_zip]; omega
  have hswil : i < (r.swapRows i j).rows.length := by rw [hswl]; exact hi
  have hsetl : i < ((r.rows.set i (r.rows.getD j [])).set j (r.rows.getD i [])).length := by
    simp
    omega
  have hpi : pv[i] = p.cellAt i c := by
    simp only [hpvdef, List.getElem_map]
    unfold Table.cellAt
    rw [List.getD_eq_getElem p.rows [] (by omega)]
  have hswi : (r.swapRows i j).rows[i] = r.rows.getD j [] := by
    show ((r.rows.set i (r.rows.getD j [])).set j (r.rows.getD i []))[i] = _
    rw [List.getElem_set_ne (by omega : j ≠ i)]
    rw [List.getElem_set_self (by simp; omega)]
  have hri : rv2[i] = r.cellAt j c := by
    simp only [hrvdef, List.getElem_map, hswi]
    rfl
  have hifalse : cellEq pv[i] rv2[i] = false := by
    rw [hpi, hri]
    exact hdiff
  have hCfalse : ((pv.zip rv2).all fun ab => cellEq ab.1 ab.2) = false := by
    by_contra hne
    rw [Bool.not_eq_false] at hne
    have hz : (pv.zip rv2)[i] = (pv[i], rv2[i]) := @List.getElem_zip _ _ pv rv2 i hzl
    have hmem : (pv[i], rv2[i]) ∈ pv.zip rv2 := by
      rw [← hz]
      exact List.getElem_mem hzl
    have := List.all_eq_true.mp hne _ hmem
    rw [hifalse] at this
    exact absurd this (by simp)
  unfold framesEqual
  have hfinal : ((r.swapRows i j).cols.all fun c2 =>
      match p.colVals c2, (r.swapRows i j).colVals c2 with
      | some pv3, some rv3 => (pv3.zip rv3).all fun ab => cellEq ab.1 ab.2
      | _, _ => false) = false := by
    by_contra hne2
    rw [Bool.not_eq_false] at hne2
    have := List.all_eq_true.mp hne2 c hcsw
    rw [hpv, hrv2] at this
    dsimp only at this
    rw [hCfalse] at this
    exact absurd this (by simp)
  rw [hfinal]
  simp

/-- C5, amended.  The oracle is column-order-insensitive: rearranging the
reference's columns by any permutation of the column indices leaves the
verdict unchanged (for well-formed references with distinct column names).
It is row-order-sensitive up to the oracle's numeric tolerance: if the
produced table passes and, at some column `c`, the produced row `i` does not
match the reference row `j` (`i ≠ j`) under the oracle's own cell
comparison, then the reference with rows `i` and `j` swapped fails — a row
permutation changes the verdict from pass to fail.  (The unrestricted
parenthetical of the claim — any permutation of non-identical rows fails —
is refuted by `claim_C5_counterexample`: rows that differ by less than the
float tolerance can keep passing.) -/
theorem claim_C5_amended (p r : Table) (π : List Nat) (i j : Nat) (c : String)
    (hπ : π.Perm (List.range r.cols.length)) (hnd : r.cols.Nodup) :
    framesEqual p (r.permuteCols π) = framesEqual p r
    ∧ (framesEqual p r = true → c ∈ r.cols → i < r.rows.length → j < r.rows.length →
        i ≠ j → cellEq (p.cellAt i c) (r.cellAt j c) = false →
        framesEqual p (r.swapRows i j) = false) :=
  ⟨framesEqual_permuteCols p r π hπ hnd,
   fun hpass hc hi hj hij hdiff =>
     framesEqual_swapRows_false p r i j c hpass hc hi hj hij hdiff⟩

theorem claim_C5_witness :
    ([1, 0] : List Nat).Perm (List.range (tblW.cols.length))
    ∧ tblW.cols.Nodup
    ∧ (framesEqual tblW (tblW.permuteCols [1, 0]) = framesEqual tblW tblW
      ∧ framesEqual tblW tblW = true
      ∧ cellEq (tblW.cellAt 0 "A") (tblW.cellAt 1 "A") = false
      ∧ framesEqual tblW (tblW.swapRows 0 1) = false) := by
  have h := claim_C5_amended tblW tblW [1, 0] 0 1 "A" (by decide) (by decide)
  exact ⟨by decide, by decide,
    h.1, by decide, by decide,
    h.2 (by decide) (by decide) (by decide) (by decide) (by decide) (by decide)⟩
